import Mathlib

/-!
Verification of the README-generator tool.

The repository contains two parallel implementations of the same tool:
the `app` variant (directory `app/`: `config.py`, `tools.py`, `agents.py`,
`__main__.py`) and the `src` variant (directory `src/app/`: `config.py`,
`tools.py`, `agents.py`).  Definitions below carry an `_app` or `_src`
suffix according to the variant they embed.

Modelling conventions:
* A Python `str` is a sequence of Unicode code points; it is modelled as
  `List Char` (`Chars`).  Slicing `s[:n]` is `List.take n`, `len` is
  `List.length`, concatenation is `++`.
* A filesystem is a finite tree (`FSEntry`).  A directory carries a
  `denied` flag: `True` means listing it raises `PermissionError`.
* The outcome of reading a file's bytes as text is abstracted by
  `ReadResult`: which decodings succeed and with what text.
* Paths are lists of components (`List String`), as in `pathlib.Path.parts`.
* The single outbound LLM request is abstracted by an
  `Except Chars Chars` parameter: `.ok t` models a response with text `t`,
  `.error e` models `generate_content` (or `.text`) raising with message `e`.
-/

/-- A Python string, modelled as its list of code points. -/
abbrev Chars := List Char

/-- Embed a Lean string literal into the `Chars` model. -/
def txt (s : String) : Chars := s.data

/-- `app/config.py`: `SUPPORTED_EXTENSIONS` (a `set`; modelled as a list,
only membership is ever used). -/
def SUPPORTED_EXTENSIONS_app : List String :=
  [".py", ".js", ".ts", ".md", ".txt", ".html", ".css", ".json", ".yaml",
   ".yml", ".java", ".c", ".cpp", ".h", ".hpp"]

/-- `app/config.py`: `EXCLUSION_PATTERNS`. -/
def EXCLUSION_PATTERNS_app : List String :=
  [".git", "__pycache__", "node_modules", ".idea", ".vscode", "venv", "env",
   "dist", "build", "coverage"]

/-- `src/app/config.py`: `SUPPORTED_EXTENSIONS`. -/
def SUPPORTED_EXTENSIONS_src : List String :=
  [".py", ".md", ".txt", ".json", ".yml", ".yaml", ".html", ".css", ".js"]

/-- `src/app/config.py`: `EXCLUSION_PATTERNS` (note the glob-like entry
`*.pyc`, which is only ever compared literally against path components). -/
def EXCLUSION_PATTERNS_src : List String :=
  ["__pycache__", ".git", "venv", ".env", "node_modules", "*.pyc", "dist",
   "build"]

/-- Outcome of decoding one file's bytes.
* `utf8Ok s`: `read_text(encoding='utf-8')` succeeds and returns `s`;
* `latin1Ok s`: UTF-8 decoding raises `UnicodeDecodeError`, and
  `read_text(encoding='latin-1')` succeeds and returns `s`;
* `undecodable`: both reads fail;
* `ioError`: reading raises some other exception (e.g. an OS error). -/
inductive ReadResult where
  | utf8Ok (s : Chars)
  | latin1Ok (s : Chars)
  | undecodable
  | ioError
deriving DecidableEq

/-- A filesystem entry: a file with a name and a read outcome, or a
directory with a name, a permission flag (`denied = true` means listing
its contents raises `PermissionError`) and children. -/
inductive FSEntry where
  | file (name : String) (rr : ReadResult)
  | dir (name : String) (denied : Bool) (children : List FSEntry)

/-- The name of an entry (`Path.name`). -/
def fs_name : FSEntry → String
  | .file n _ => n
  | .dir n _ _ => n

/-- Split a component at its last dot: `some (before, after)` where
`after` holds no dot, or `none` when there is no dot. -/
def splitLastDot : List Char → Option (List Char × List Char)
  | [] => none
  | c :: rest =>
    match splitLastDot rest with
    | some (b, a) => some (c :: b, a)
    | none => if c = '.' then some ([], rest) else none

/-- `pathlib.PurePath.suffix` of a final component: the text from the last
dot on, unless that dot is the first or the last character (so `.git` and
`name.` have suffix `""`). -/
def py_suffix (name : String) : String :=
  match splitLastDot name.data with
  | none => ""
  | some (b, a) => if b = [] ∨ a = [] then "" else String.mk ('.' :: a)

/-- `app/tools.py` `read_file_content` (lines 80-104): try UTF-8; on
`UnicodeDecodeError` fall back to latin-1; on any remaining failure
return `None`. -/
def read_file_content : ReadResult → Option Chars
  | .utf8Ok s => some s
  | .latin1Ok s => some s
  | .undecodable => none
  | .ioError => none

/-- `src/app/tools.py` line 44, `file_path.read_text(encoding="utf-8")`
inside `try`: only a clean UTF-8 decode yields a value, every other
outcome raises (and the caller's `except` skips the file). -/
def read_utf8_src : ReadResult → Option Chars
  | .utf8Ok s => some s
  | _ => none

/-- A file path as returned by a scan: the parts of the containing
directory (`pre`), the file name, and the file's read outcome. -/
structure PFile where
  pre : List String
  name : String
  rr : ReadResult
deriving DecidableEq

/-- The `for file in files` body of `os.walk` at one directory
(`app/tools.py` lines 61-70): keep the files of this directory whose
`Path.suffix` is supported.  (`EXCLUSION_PATTERNS` is not consulted for
files, only for directories.) -/
def files_of_app (pp : List String) (cs : List FSEntry) : List PFile :=
  cs.filterMap fun e =>
    match e with
    | .file n rr =>
      if py_suffix n ∈ SUPPORTED_EXTENSIONS_app then some ⟨pp, n, rr⟩ else none
    | .dir _ _ _ => none

/-- The recursive part of `os.walk` under `list_files`
(`app/tools.py` lines 57-70): descend into each subdirectory that survives
the in-place pruning `dirs[:] = [d for d in dirs if d not in
EXCLUSION_PATTERNS]`; a directory whose listing raises (`denied`)
contributes nothing (`os.walk` ignores scandir errors by default). -/
def walk_kids_app (pp : List String) : List FSEntry → List PFile
  | [] => []
  | .file _ _ :: rest => walk_kids_app pp rest
  | .dir n dn kids :: rest =>
    (if n ∈ EXCLUSION_PATTERNS_app then []
     else if dn then []
     else files_of_app (pp ++ [n]) kids ++ walk_kids_app (pp ++ [n]) kids)
    ++ walk_kids_app pp rest

/-- `os.walk(dir_path)` as used by `list_files`: the root's own files
first, then the recursive traversal. -/
def os_walk_app (pp : List String) (denied : Bool) (cs : List FSEntry) : List PFile :=
  if denied then [] else files_of_app pp cs ++ walk_kids_app pp cs

/-- `app/tools.py` `list_files` (lines 34-78): empty result when the root
is missing or not a directory, otherwise the filtered walk.  `dirParts`
are the parts of the `directory` argument; returned paths are rooted at
it, exactly as `Path(root) / file` is in the source. -/
def list_files_app (dirParts : List String) (root : Option FSEntry) : List PFile :=
  match root with
  | none => []
  | some (.file _ _) => []
  | some (.dir _ dn cs) => os_walk_app dirParts dn cs

/-- `pathlib.Path.rglob("*")` as used by `src/app/tools.py`
`get_file_summaries`: every file anywhere below the root, including
inside excluded directories (exclusion there is a post-filter); a denied
directory yields nothing (glob swallows `PermissionError`).  Directory
entries themselves are dropped here, mirroring the `if file_path.is_dir()
... continue` branch. -/
def rglob_src (pp : List String) : List FSEntry → List PFile
  | [] => []
  | .file n rr :: rest => ⟨pp, n, rr⟩ :: rglob_src pp rest
  | .dir n dn kids :: rest =>
    (if dn then [] else rglob_src (pp ++ [n]) kids) ++ rglob_src pp rest

/-- `app/tools.py` `should_exclude` (lines 15-32): some path component is
an exclusion pattern.  (The `startswith` branch in the source ends in
`pass` and has no effect; it is omitted.) -/
def should_exclude_app (parts : List String) : Bool :=
  parts.any fun part => decide (part ∈ EXCLUSION_PATTERNS_app)

/-- The truncation marker of `app/agents.py` line 60. -/
def TRUNC_MARKER_app : Chars := txt "\n...(truncated)..."

/-- The truncation marker of `src/app/tools.py` line 47. -/
def TRUNC_MARKER_src : Chars := txt "\n... [Content Truncated] ..."

/-- `app/agents.py` lines 58-60: `content[:max_chars] + marker` when
`len(content) > max_chars`, otherwise the content unchanged. -/
def truncate_app (maxChars : Nat) (content : Chars) : Chars :=
  if maxChars < content.length then content.take maxChars ++ TRUNC_MARKER_app
  else content

/-- `src/app/tools.py` lines 46-47: same shape, different marker. -/
def truncate_src (maxChars : Nat) (content : Chars) : Chars :=
  if maxChars < content.length then content.take maxChars ++ TRUNC_MARKER_src
  else content

/-- `str(path)` for a relative path: components joined by `/`. -/
def path_text (parts : List String) : Chars :=
  List.intercalate (txt "/") (parts.map String.data)

/-- `pathlib.Path.name` of a path given by its parts. -/
def last_name (parts : List String) : String := parts.getLastD ""

/-- `app/models.py` `FileSummary` (pydantic): relative path, extension,
content (possibly truncated) and the placeholder description. -/
structure FileSummaryApp where
  path : Chars
  extension : String
  content : Chars
  summary : Chars
deriving DecidableEq

/-- One iteration of the loop in `app/agents.py` `get_file_summaries`
(lines 48-67): read the file; Python's `if content:` keeps only a
non-`None`, non-empty text; compute the path relative to the project
root (`relative_to` never raises here because `list_files` only returns
paths under the root); truncate; build the `FileSummary`. -/
def mk_summary_app (maxChars : Nat) (dirParts : List String) (f : PFile) :
    Option FileSummaryApp :=
  match read_file_content f.rr with
  | none => none
  | some content =>
    if content = [] then none
    else
      let relParts := f.pre.drop dirParts.length ++ [f.name]
      some ⟨path_text relParts, py_suffix f.name, truncate_app maxChars content,
            txt "Content of " ++ path_text relParts⟩

/-- The body of either summaries loop: append the built summary, if
any, at the back of the accumulator. -/
def summary_fold_step {β : Type} (g : PFile → Option β) (acc : List β) (f : PFile) :
    List β :=
  match g f with
  | some s => acc ++ [s]
  | none => acc

/-- `app/agents.py` `get_file_summaries` (lines 38-68): fold the loop
(appending at the back) over the files returned by `list_files`. -/
def get_file_summaries_app (maxChars : Nat) (dirParts : List String)
    (root : Option FSEntry) : List FileSummaryApp :=
  (list_files_app dirParts root).foldl
    (summary_fold_step (mk_summary_app maxChars dirParts)) []

/-- `src/app/tools.py` `FileSummary` dataclass.  `relative_path` is kept
as parts; it is rendered with `/` separators where displayed. -/
structure FileSummarySrc where
  relative_path : List String
  content : Chars
deriving DecidableEq

/-- One iteration of the `rglob` loop in `src/app/tools.py`
`get_file_summaries` (lines 36-53): skip paths one of whose components
(root prefix included) is excluded; keep supported suffixes; a UTF-8 read
failure of any kind skips the file (`except Exception: continue` - there
is no fallback encoding in this variant); truncate. -/
def mk_summary_src (maxChars : Nat) (dirParts : List String) (f : PFile) :
    Option FileSummarySrc :=
  if (f.pre ++ [f.name]).any (fun part => decide (part ∈ EXCLUSION_PATTERNS_src)) then none
  else if py_suffix f.name ∈ SUPPORTED_EXTENSIONS_src then
    match read_utf8_src f.rr with
    | some content =>
      some ⟨f.pre.drop dirParts.length ++ [f.name], truncate_src maxChars content⟩
    | none => none
  else none

/-- `src/app/tools.py` `get_file_summaries` (lines 31-55). -/
def get_file_summaries_src (maxChars : Nat) (dirParts : List String)
    (denied : Bool) (cs : List FSEntry) : List FileSummarySrc :=
  (if denied then [] else rglob_src dirParts cs).foldl
    (summary_fold_step (mk_summary_src maxChars dirParts)) []

/-- Python's lexicographic `<=` on strings, by code point (used through
the sort keys below). -/
def chars_le : Chars → Chars → Bool
  | [], _ => true
  | _ :: _, [] => false
  | a :: as, b :: bs =>
    if a.toNat < b.toNat then true
    else if b.toNat < a.toNat then false
    else chars_le as bs

/-- Python tuple comparison `(bool1, str1) <= (bool2, str2)`:
lexicographic, with `False < True`. -/
def key_le (a b : Bool × Chars) : Bool :=
  if a.1 = b.1 then chars_le a.2 b.2 else !a.1

/-- `str.lower()` of a name, as used in the sort key of
`app/tools.py` line 130 (ASCII case folding suffices for the names
compared here). -/
def lower_key (n : String) : Chars := n.data.map Char.toLower

/-- A rendered directory child for the `app` tree renderer: its name,
whether it is a directory, and its already-rendered subtree as a function
of the line prefix it will be given (`_add_to_tree`'s `prefix`
argument).  For a file `sub` is unused. -/
structure RenderedApp where
  name : String
  isDir : Bool
  sub : Chars → Chars

/-- The sort key relation of `app/tools.py` lines 127-130:
`key=lambda e: (e.is_file(), e.name.lower())` - directories
(`is_file() = False`) first, then case-insensitive alphabetical. -/
def rendered_le_app (a b : RenderedApp) : Prop :=
  key_le (!a.isDir, lower_key a.name) (!b.isDir, lower_key b.name) = true

instance : DecidableRel rendered_le_app := fun a b => by
  unfold rendered_le_app; infer_instance

/-- Python's `sorted` is a stable sort; so is insertion sort, so the two
agree as functions for any total preorder on the keys. -/
def sort_rendered_app (l : List RenderedApp) : List RenderedApp :=
  List.insertionSort rendered_le_app l

/-- The child filter of `app/tools.py` lines 127-129:
`e.name not in EXCLUSION_PATTERNS and not should_exclude(e)` where `e`'s
parts are the parent's parts followed by the child's name. -/
def keep_child_app (parentParts : List String) (n : String) : Bool :=
  decide (n ∉ EXCLUSION_PATTERNS_app) && !(should_exclude_app (parentParts ++ [n]))

/-- The `for i, entry in enumerate(entries)` loop of `_add_to_tree`
(`app/tools.py` lines 135-143): `└── ` and four-space continuation for
the last entry, `├── ` and `│   ` otherwise; directories get a trailing
`/` and their subtree rendered with the extended prefix. -/
def rows_app (pfx : Chars) : List RenderedApp → Chars
  | [] => []
  | [r] =>
    pfx ++ txt "└── " ++ r.name.data ++ (if r.isDir then txt "/" else []) ++ txt "\n"
    ++ (if r.isDir then r.sub (pfx ++ txt "    ") else [])
  | r :: rest =>
    pfx ++ txt "├── " ++ r.name.data ++ (if r.isDir then txt "/" else []) ++ txt "\n"
    ++ (if r.isDir then r.sub (pfx ++ txt "│   ") else [])
    ++ rows_app pfx rest

mutual

/-- Render one entry for the `app` tree renderer; for a directory the
subtree text is `_add_to_tree` of its children, as a function of the
prefix. -/
def render_node_app : List String → FSEntry → RenderedApp
  | _, .file n _ => ⟨n, false, fun _ => []⟩
  | pp, .dir n dn cs => ⟨n, true, fun pfx => add_to_tree_app (pp ++ [n]) dn cs pfx⟩
termination_by pp e => sizeOf e
decreasing_by
  simp only [FSEntry.dir.sizeOf_spec]; omega

/-- `app/tools.py` `_add_to_tree` (lines 122-143) at a directory whose
full parts are `selfParts`: on `PermissionError` (`denied`) append
nothing and return; otherwise list, filter, sort and render the
children. -/
def add_to_tree_app (selfParts : List String) (denied : Bool) (cs : List FSEntry)
    (pfx : Chars) : Chars :=
  if denied then []
  else
    rows_app pfx (sort_rendered_app
      ((cs.attach.filter fun e => keep_child_app selfParts (fs_name e.1)).map
        fun e => render_node_app selfParts e.1))
termination_by sizeOf cs
decreasing_by
  have h2 := List.sizeOf_lt_of_mem e.2
  omega

end

/-- `app/tools.py` `generate_directory_tree` (lines 106-146):
`Invalid directory: ...` when the root is missing or not a directory,
otherwise the root's name, a slash, and `_add_to_tree(dir_path, "")`. -/
def generate_directory_tree_app (dirParts : List String) (root : Option FSEntry) : Chars :=
  match root with
  | some (.dir _ dn cs) =>
    (last_name dirParts).data ++ txt "/\n" ++ add_to_tree_app dirParts dn cs []
  | _ => txt "Invalid directory: " ++ path_text dirParts

/-- A rendered directory child for the `src` tree renderer; `sub` may
fail with a propagated `PermissionError`. -/
structure RenderedSrc where
  name : String
  isDir : Bool
  sub : Chars → Except Chars Chars

/-- The order used by `sorted(...)` in `src/app/tools.py` line 17:
plain `Path` comparison, which for siblings is code-point comparison of
the names - no grouping by type, no case folding. -/
def rendered_le_src (a b : RenderedSrc) : Prop :=
  chars_le a.name.data b.name.data = true

instance : DecidableRel rendered_le_src := fun a b => by
  unfold rendered_le_src; infer_instance

/-- The sort of `src/app/tools.py` line 17 (Python's `sorted` is stable,
as is insertion sort). -/
def sort_rendered_src (l : List RenderedSrc) : List RenderedSrc :=
  List.insertionSort rendered_le_src l

/-- The `for i, item in enumerate(items)` loop of the `src` renderer
(`src/app/tools.py` lines 19-27): one list element per connector line,
plus one element holding the whole rendered subtree of each directory
(note: no trailing `/` on directory names in this variant).  Any
`PermissionError` raised below propagates out. -/
def rows_src (indent : Chars) : List RenderedSrc → Except Chars (List Chars)
  | [] => .ok []
  | [r] =>
    let line := indent ++ txt "└── " ++ r.name.data
    if r.isDir then do
      let sub ← r.sub (indent ++ txt "    ")
      .ok [line, sub]
    else .ok [line]
  | r :: rest =>
    let line := indent ++ txt "├── " ++ r.name.data
    if r.isDir then do
      let sub ← r.sub (indent ++ txt "│   ")
      let more ← rows_src indent rest
      .ok (line :: sub :: more)
    else do
      let more ← rows_src indent rest
      .ok (line :: more)

mutual

/-- Render one entry for the `src` tree renderer. -/
def render_node_src : FSEntry → RenderedSrc
  | .file n _ => ⟨n, false, fun _ => .ok []⟩
  | .dir n dn cs => ⟨n, true, fun ind => tree_src_dir dn cs ind⟩
termination_by e => sizeOf e
decreasing_by
  simp only [FSEntry.dir.sizeOf_spec]; omega

/-- `src/app/tools.py` `generate_directory_tree` (lines 11-29) at one
directory: `root.iterdir()` raises `PermissionError` on a denied
directory and nothing catches it; otherwise filter by name, sort, render
the rows and join them with newlines. -/
def tree_src_dir (denied : Bool) (cs : List FSEntry) (indent : Chars) :
    Except Chars Chars :=
  if denied then .error (txt "PermissionError")
  else
    match rows_src indent (sort_rendered_src
        ((cs.attach.filter fun e => decide (fs_name e.1 ∉ EXCLUSION_PATTERNS_src)).map
          fun e => render_node_src e.1)) with
    | .error e => .error e
    | .ok pieces => .ok (List.intercalate (txt "\n") pieces)
termination_by sizeOf cs
decreasing_by
  have h2 := List.sizeOf_lt_of_mem e.2
  omega

end

/-- `src/app/tools.py` `generate_directory_tree(root_path)` with the
default `indent=""`; the root is the project directory (parts, denied
flag, children). -/
def generate_directory_tree_src (denied : Bool) (cs : List FSEntry) :
    Except Chars Chars :=
  tree_src_dir denied cs []

/-- The fenced-code language tag of `app/agents.py` line 134:
`extension[1:] if extension.startswith('.') else 'text'`. -/
def lang_tag (ext : String) : Chars :=
  match ext.data with
  | '.' :: rest => rest
  | _ => txt "text"

/-- One `## File:` section of the context (`app/agents.py` line 134). -/
def file_section_app (s : FileSummaryApp) : Chars :=
  txt "\n## File: " ++ s.path ++ txt "\n```" ++ lang_tag s.extension ++ txt "\n"
  ++ s.content ++ txt "\n```\n"

/-- `context_str` of `app/agents.py` lines 131-134. -/
def context_app (tree : Chars) (summaries : List FileSummaryApp) : Chars :=
  txt "# Project Directory Tree\n```\n" ++ tree ++ txt "\n```\n\n# File Contents\n"
  ++ (summaries.map file_section_app).flatten

/-- `str(n)` for a Python int arising from `len`. -/
def nat_text (n : Nat) : Chars := (toString n).data

/-- The dry-run preview of `app/agents.py` lines 138-146 (the second
line of the f-string literal consists of twelve spaces of source
indentation). -/
def dry_run_text_app (numFiles : Nat) (ctx : Chars) : Chars :=
  txt "[DRY RUN MODE]"
  ++ txt "\n            \nAnalysis complete.\n- Files found: "
  ++ nat_text numFiles
  ++ txt "\n- Total context size (approx): " ++ nat_text ctx.length
  ++ txt " characters\n\nPreview of Context Sent to LLM:\n"
  ++ ctx.take 1000 ++ txt "...\n"

/-- The missing-credential message of `app/agents.py` line 150. -/
def key_error_text_app (ctx : Chars) : Chars :=
  txt "ERROR: GEMINI_API_KEY not set. \n\nGenerated Context (Preview):\n"
  ++ ctx.take 500 ++ txt "..."

/-- The empty-scan message of `app/agents.py` line 128. -/
def NO_FILES_ERROR_app : Chars :=
  txt "Error: No valid files found in the directory. Cannot generate README."

/-- Result of one `generate` call: the returned text and whether the
remote endpoint was invoked (`self.model.generate_content` /
`self.client.models.generate_content`). -/
structure GenResult where
  output : Chars
  llmCalled : Bool
deriving DecidableEq

/-- `app/agents.py` `__init__` (lines 29-36): `self.model` is set exactly
when `os.environ.get("GEMINI_API_KEY")` is truthy (present and
non-empty); otherwise it stays `None` and only a warning is logged. -/
def readme_agent_model_app (apiKey : Option String) : Bool :=
  match apiKey with
  | none => false
  | some k => decide (k ≠ "")

/-- `app/agents.py` `generate` (lines 108-161), with the remote call
abstracted by `llm`.  Branch order as in the source: empty summaries,
then dry run, then missing model, then the guarded LLM call. -/
def generate_app (hasModel : Bool) (maxChars : Nat) (dirParts : List String)
    (root : Option FSEntry) (dryRun : Bool) (llm : Except Chars Chars) : GenResult :=
  let tree := generate_directory_tree_app dirParts root
  let summaries := get_file_summaries_app maxChars dirParts root
  if summaries = [] then ⟨NO_FILES_ERROR_app, false⟩
  else
    let ctx := context_app tree summaries
    if dryRun then ⟨dry_run_text_app summaries.length ctx, false⟩
    else if !hasModel then ⟨key_error_text_app ctx, false⟩
    else
      match llm with
      | .ok t => ⟨t, true⟩
      | .error e => ⟨txt "Error generating README: " ++ e, true⟩

/-- `src/app/agents.py` `__init__` (lines 12-20): a falsy
(`None` or empty) `GEMINI_API_KEY` raises `ValueError` before any client
exists; otherwise construction succeeds. -/
def readme_agent_init_src (apiKey : Option String) : Except Chars Unit :=
  match apiKey with
  | none =>
    .error (txt "GEMINI_API_KEY environment variable not set. Please set it in your terminal.")
  | some k =>
    if k = "" then
      .error (txt "GEMINI_API_KEY environment variable not set. Please set it in your terminal.")
    else .ok ()

/-- The two context lines contributed per summary by
`src/app/agents.py` lines 39-41. -/
def file_section_src (s : FileSummarySrc) : List Chars :=
  [txt "## File: " ++ path_text s.relative_path,
   txt "```\n" ++ s.content ++ txt "\n```"]

/-- `src/app/agents.py` `_get_context` (lines 22-43): the tree is built
first (a `PermissionError` from it propagates and the summaries are
never computed), then the parts are joined with newlines. -/
def context_src (maxChars : Nat) (dirParts : List String) (denied : Bool)
    (cs : List FSEntry) : Except Chars Chars :=
  match generate_directory_tree_src denied cs with
  | .error e => .error e
  | .ok tree =>
    let summaries := get_file_summaries_src maxChars dirParts denied cs
    .ok (List.intercalate (txt "\n")
      ([txt "# Project Directory Tree", txt "```", tree, txt "```",
        txt "\n# File Contents"]
       ++ (summaries.map file_section_src).flatten))

/-- The dry-run message of `src/app/agents.py` line 50. -/
def DRY_RUN_TEXT_src : Chars :=
  txt "--- DRY RUN COMPLETE ---\nReview the gathered context above. No LLM was called."

instance : DecidableEq (Except Chars Chars) := fun a b =>
  match a, b with
  | .ok x, .ok y => decidable_of_iff (x = y) (by simp)
  | .error x, .error y => decidable_of_iff (x = y) (by simp)
  | .ok _, .error _ => isFalse (by simp)
  | .error _, .ok _ => isFalse (by simp)

/-- Result of `src` `generate`: `.error` models an uncaught exception
propagating out of the call. -/
structure GenResultSrc where
  out : Except Chars Chars
  llmCalled : Bool
deriving DecidableEq

/-- `src/app/agents.py` `generate` (lines 45-73): `_get_context` runs
outside any `try` (its exceptions propagate); dry run returns before the
`try` block; inside the `try`, a cooldown sleep precedes the single call,
and any exception becomes the formatted error text. -/
def generate_src (maxChars : Nat) (dirParts : List String) (denied : Bool)
    (cs : List FSEntry) (dryRun : Bool) (llm : Except Chars Chars) : GenResultSrc :=
  match context_src maxChars dirParts denied cs with
  | .error e => ⟨.error e, false⟩
  | .ok _ =>
    if dryRun then ⟨.ok DRY_RUN_TEXT_src, false⟩
    else
      match llm with
      | .ok t => ⟨.ok t, true⟩
      | .error e => ⟨.ok (txt "An error occurred while generating the README: " ++ e), true⟩

/-- Outcome of the command-line driver: exit status and what was printed
for the result. -/
structure RunResult where
  exitCode : Nat
  printed : Chars
deriving DecidableEq

/-- `app/__main__.py` `main` (lines 10-37): validate that the target
exists (`root = none` models a missing path) and is a directory (a
`file` root models an existing non-directory), printing an error naming
the path and exiting with status 1 otherwise; then run the agent and
print its result, reaching the end of `main` (implicit exit status 0).
The embedded `generate_app` is total, so the driver's `except` branch
(print and exit 1) is unreachable in the model. -/
def main_app (dirParts : List String) (root : Option FSEntry) (hasModel : Bool)
    (maxChars : Nat) (dryRun : Bool) (llm : Except Chars Chars) : RunResult :=
  match root with
  | none =>
    ⟨1, txt "Error: Directory \x27" ++ path_text dirParts ++ txt "\x27 does not exist."⟩
  | some (.file _ _) =>
    ⟨1, txt "Error: Path \x27" ++ path_text dirParts ++ txt "\x27 is not a directory."⟩
  | some (.dir _ _ _) =>
    ⟨0, (generate_app hasModel maxChars dirParts root dryRun llm).output⟩

/-! ### Helper lemmas -/

theorem chars_le_total (a b : Chars) : chars_le a b = true ∨ chars_le b a = true := by
  induction a generalizing b with
  | nil => left; rfl
  | cons x xs ih =>
    cases b with
    | nil => right; rfl
    | cons y ys =>
      simp only [chars_le]
      rcases Nat.lt_trichotomy x.toNat y.toNat with h | h | h
      · left; simp [h]
      · have h1 : ¬ x.toNat < y.toNat := by omega
        have h2 : ¬ y.toNat < x.toNat := by omega
        simp only [h1, h2, if_false]
        exact ih ys
      · right; simp [h]

theorem chars_le_step {x y : Char} {xs ys : Chars}
    (h : chars_le (x :: xs) (y :: ys) = true) :
    x.toNat < y.toNat ∨ (x.toNat = y.toNat ∧ chars_le xs ys = true) := by
  by_cases h1 : x.toNat < y.toNat
  · exact Or.inl h1
  · by_cases h2 : y.toNat < x.toNat
    · simp [chars_le, h1, h2] at h
    · exact Or.inr ⟨by omega, by simpa [chars_le, h1, h2] using h⟩

theorem chars_le_trans (a b c : Chars) (hab : chars_le a b = true)
    (hbc : chars_le b c = true) : chars_le a c = true := by
  induction a generalizing b c with
  | nil => rfl
  | cons x xs ih =>
    cases b with
    | nil => simp [chars_le] at hab
    | cons y ys =>
      cases c with
      | nil => simp [chars_le] at hbc
      | cons z zs =>
        rcases chars_le_step hab with h1 | ⟨h1, h1t⟩ <;>
          rcases chars_le_step hbc with h2 | ⟨h2, h2t⟩
        · simp [chars_le, show x.toNat < z.toNat by omega]
        · simp [chars_le, show x.toNat < z.toNat by omega]
        · simp [chars_le, show x.toNat < z.toNat by omega]
        · have e1 : ¬ x.toNat < z.toNat := by omega
          have e2 : ¬ z.toNat < x.toNat := by omega
          simp only [chars_le, e1, e2, if_false]
          exact ih ys zs h1t h2t

theorem key_le_total (a b : Bool × Chars) : key_le a b = true ∨ key_le b a = true := by
  unfold key_le
  by_cases h : a.1 = b.1
  · simp [h, chars_le_total]
  · have h2 : ¬ b.1 = a.1 := fun hh => h hh.symm
    simp only [h, h2, if_false]
    cases ha : a.1 <;> cases hb : b.1 <;> simp_all

theorem key_le_trans (a b c : Bool × Chars) (hab : key_le a b = true)
    (hbc : key_le b c = true) : key_le a c = true := by
  unfold key_le at hab hbc ⊢
  by_cases h1 : a.1 = b.1 <;> by_cases h2 : b.1 = c.1
  · simp only [h1.trans h2, if_true]
    simp only [h1, if_true] at hab
    simp only [h2, if_true] at hbc
    exact chars_le_trans _ _ _ hab hbc
  · have h3 : ¬ a.1 = c.1 := fun hh => h2 (h1.symm.trans hh)
    simp only [h3, if_false]
    rw [h1]
    simpa [h2] using hbc
  · have h3 : ¬ a.1 = c.1 := fun hh => h1 (hh.trans h2.symm)
    simp only [h3, if_false]
    simpa [h1] using hab
  · exfalso
    simp only [h1, if_false] at hab
    simp only [h2, if_false] at hbc
    cases ha : a.1 <;> cases hb : b.1 <;> simp_all

instance : IsTotal RenderedApp rendered_le_app :=
  ⟨fun a b => by unfold rendered_le_app; exact key_le_total _ _⟩

instance : IsTrans RenderedApp rendered_le_app :=
  ⟨fun a b c => by unfold rendered_le_app; exact key_le_trans _ _ _⟩

instance : IsTotal RenderedSrc rendered_le_src :=
  ⟨fun a b => by unfold rendered_le_src; exact chars_le_total _ _⟩

instance : IsTrans RenderedSrc rendered_le_src :=
  ⟨fun a b c => by unfold rendered_le_src; exact chars_le_trans _ _ _⟩

/-- Appending through the summary-accumulating fold: the loop of either
`get_file_summaries` is a `filterMap`. -/
theorem foldl_step_filterMap {β : Type} (g : PFile → Option β) :
    ∀ (l : List PFile) (acc : List β),
      l.foldl (summary_fold_step g) acc = acc ++ l.filterMap g := by
  intro l
  induction l with
  | nil => intro acc; simp
  | cons x rest ih =>
    intro acc
    simp only [List.foldl_cons, List.filterMap_cons]
    cases hx : g x with
    | none =>
      have hstep : summary_fold_step g acc x = acc := by simp [summary_fold_step, hx]
      rw [hstep, ih acc]
    | some b =>
      have hstep : summary_fold_step g acc x = acc ++ [b] := by
        simp [summary_fold_step, hx]
      rw [hstep, ih (acc ++ [b])]
      simp

theorem get_file_summaries_app_eq (maxChars : Nat) (dirParts : List String)
    (root : Option FSEntry) :
    get_file_summaries_app maxChars dirParts root
      = (list_files_app dirParts root).filterMap (mk_summary_app maxChars dirParts) := by
  unfold get_file_summaries_app
  simpa using foldl_step_filterMap (mk_summary_app maxChars dirParts) _ []

theorem get_file_summaries_src_eq (maxChars : Nat) (dirParts : List String)
    (denied : Bool) (cs : List FSEntry) :
    get_file_summaries_src maxChars dirParts denied cs
      = (if denied then [] else rglob_src dirParts cs).filterMap
          (mk_summary_src maxChars dirParts) := by
  unfold get_file_summaries_src
  simpa using foldl_step_filterMap (mk_summary_src maxChars dirParts) _ []

theorem mem_get_file_summaries_app {maxChars : Nat} {dirParts : List String}
    {root : Option FSEntry} {s : FileSummaryApp}
    (hs : s ∈ get_file_summaries_app maxChars dirParts root) :
    ∃ f ∈ list_files_app dirParts root, mk_summary_app maxChars dirParts f = some s := by
  rw [get_file_summaries_app_eq] at hs
  exact List.mem_filterMap.mp hs

theorem mem_get_file_summaries_src {maxChars : Nat} {dirParts : List String}
    {denied : Bool} {cs : List FSEntry} {s : FileSummarySrc}
    (hs : s ∈ get_file_summaries_src maxChars dirParts denied cs) :
    ∃ f ∈ (if denied then [] else rglob_src dirParts cs),
      mk_summary_src maxChars dirParts f = some s := by
  rw [get_file_summaries_src_eq] at hs
  exact List.mem_filterMap.mp hs

theorem fsentry_sizeOf_pos (e : FSEntry) : 1 ≤ sizeOf e := by
  cases e <;> simp_arith

theorem mem_files_of_app {pp : List String} {cs : List FSEntry} {f : PFile}
    (hf : f ∈ files_of_app pp cs) :
    f.pre = pp ∧ py_suffix f.name ∈ SUPPORTED_EXTENSIONS_app := by
  unfold files_of_app at hf
  obtain ⟨e, _, hsome⟩ := List.mem_filterMap.mp hf
  cases e with
  | file n rr =>
    by_cases h : py_suffix n ∈ SUPPORTED_EXTENSIONS_app
    · simp only [h, if_true] at hsome
      cases hsome
      exact ⟨rfl, h⟩
    · simp [h] at hsome
  | dir n dn kids => simp at hsome

/-- Every file produced by the recursive part of the walk has a
supported suffix and lies under the starting directory via components
that all survived the pruning. -/
theorem mem_walk_kids_app :
    ∀ (k : Nat) (cs : List FSEntry), sizeOf cs ≤ k →
      ∀ (pp : List String) (f : PFile), f ∈ walk_kids_app pp cs →
        py_suffix f.name ∈ SUPPORTED_EXTENSIONS_app ∧
        ∃ mid, f.pre = pp ++ mid ∧ ∀ c ∈ mid, c ∉ EXCLUSION_PATTERNS_app := by
  intro k
  induction k with
  | zero =>
    intro cs hle pp f hf
    cases cs with
    | nil => simp [walk_kids_app] at hf
    | cons e rest =>
      exfalso
      have := fsentry_sizeOf_pos e
      simp only [List.cons.sizeOf_spec] at hle
      omega
  | succ k ih =>
    intro cs hle pp f hf
    cases cs with
    | nil => simp [walk_kids_app] at hf
    | cons e rest =>
      have hrest : sizeOf rest ≤ k := by
        have := fsentry_sizeOf_pos e
        simp only [List.cons.sizeOf_spec] at hle
        omega
      cases e with
      | file n rr =>
        rw [walk_kids_app] at hf
        exact ih rest hrest pp f hf
      | dir n dn kids =>
        have hkids : sizeOf kids ≤ k := by
          simp only [List.cons.sizeOf_spec, FSEntry.dir.sizeOf_spec] at hle
          omega
        rw [walk_kids_app] at hf
        rcases List.mem_append.mp hf with h | h
        · by_cases hex : n ∈ EXCLUSION_PATTERNS_app
          · simp [hex] at h
          · by_cases hdn : dn = true
            · simp [hex, hdn] at h
            · simp only [hex, hdn, if_false] at h
              rcases List.mem_append.mp h with h2 | h2
              · obtain ⟨hpre, hsuf⟩ := mem_files_of_app h2
                refine ⟨hsuf, [n], by rw [hpre], ?_⟩
                intro c hc
                rcases List.mem_singleton.mp hc with rfl
                exact hex
              · obtain ⟨hsuf, mid, hpre, hmid⟩ := ih kids hkids (pp ++ [n]) f h2
                refine ⟨hsuf, n :: mid, by rw [hpre]; simp, ?_⟩
                intro c hc
                rcases List.mem_cons.mp hc with rfl | hc2
                · exact hex
                · exact hmid c hc2
        · exact ih rest hrest pp f h

/-- Every file returned by `list_files` has a supported suffix, and the
components of its path below the root all avoid the exclusion set. -/
theorem mem_list_files_app {dirParts : List String} {root : Option FSEntry} {f : PFile}
    (hf : f ∈ list_files_app dirParts root) :
    py_suffix f.name ∈ SUPPORTED_EXTENSIONS_app ∧
    ∃ mid, f.pre = dirParts ++ mid ∧ ∀ c ∈ mid, c ∉ EXCLUSION_PATTERNS_app := by
  match root with
  | none => simp [list_files_app] at hf
  | some (.file _ _) => simp [list_files_app] at hf
  | some (.dir _ dn cs) =>
    unfold list_files_app os_walk_app at hf
    by_cases hdn : dn = true
    · simp [hdn] at hf
    · simp only [hdn, if_false] at hf
      rcases List.mem_append.mp hf with h | h
      · obtain ⟨hpre, hsuf⟩ := mem_files_of_app h
        exact ⟨hsuf, [], by simpa using hpre, by intro c hc; simp at hc⟩
      · exact mem_walk_kids_app (sizeOf cs) cs (Nat.le_refl _) dirParts f h

/-- No name in the `app` exclusion set has a supported suffix, so the
file-name component of a scanned path is itself never an exclusion
entry. -/
theorem suffix_not_excluded_app (n : String)
    (h : py_suffix n ∈ SUPPORTED_EXTENSIONS_app) : n ∉ EXCLUSION_PATTERNS_app := by
  intro hn
  fin_cases hn <;> revert h <;> decide

/-! ### Claim theorems -/

/-- C2: whenever a file's content length exceeds the configured maximum
`maxChars`, the stored content equals the first `maxChars` characters of
the original followed by the truncation marker (in both variants), hence
has length at most `maxChars` plus the marker length and ends with the
marker; and a content `d` within the limit is stored unchanged, so the
marker is appended exactly in the over-limit case. -/
theorem truncation_policy (maxChars : Nat) (c d : Chars)
    (h : maxChars < c.length) (hd : d.length ≤ maxChars) :
    truncate_app maxChars c = c.take maxChars ++ TRUNC_MARKER_app ∧
    (truncate_app maxChars c).length ≤ maxChars + TRUNC_MARKER_app.length ∧
    TRUNC_MARKER_app.isSuffixOf (truncate_app maxChars c) = true ∧
    truncate_src maxChars c = c.take maxChars ++ TRUNC_MARKER_src ∧
    (truncate_src maxChars c).length ≤ maxChars + TRUNC_MARKER_src.length ∧
    TRUNC_MARKER_src.isSuffixOf (truncate_src maxChars c) = true ∧
    truncate_app maxChars d = d ∧ truncate_src maxChars d = d := by
  have happ : truncate_app maxChars c = c.take maxChars ++ TRUNC_MARKER_app := by
    unfold truncate_app
    rw [if_pos h]
  have hsrc : truncate_src maxChars c = c.take maxChars ++ TRUNC_MARKER_src := by
    unfold truncate_src
    rw [if_pos h]
  refine ⟨happ, ?_, ?_, hsrc, ?_, ?_, ?_, ?_⟩
  · rw [happ, List.length_append, List.length_take]
    omega
  · rw [happ, List.isSuffixOf_iff_suffix]
    exact List.suffix_append _ _
  · rw [hsrc, List.length_append, List.length_take]
    omega
  · rw [hsrc, List.isSuffixOf_iff_suffix]
    exact List.suffix_append _ _
  · unfold truncate_app
    rw [if_neg (by omega)]
  · unfold truncate_src
    rw [if_neg (by omega)]

/-- Witness for C2 at the spec's own scenario: a 20-character content
with `maxChars = 10`, and an in-limit content of length 5. -/
theorem truncation_policy_witness :
    10 < (txt "0123456789ABCDEFGHIJ").length ∧ (txt "short").length ≤ 10 ∧
    (truncate_app 10 (txt "0123456789ABCDEFGHIJ")
        = (txt "0123456789ABCDEFGHIJ").take 10 ++ TRUNC_MARKER_app ∧
     (truncate_app 10 (txt "0123456789ABCDEFGHIJ")).length ≤ 10 + TRUNC_MARKER_app.length ∧
     TRUNC_MARKER_app.isSuffixOf (truncate_app 10 (txt "0123456789ABCDEFGHIJ")) = true ∧
     truncate_src 10 (txt "0123456789ABCDEFGHIJ")
        = (txt "0123456789ABCDEFGHIJ").take 10 ++ TRUNC_MARKER_src ∧
     (truncate_src 10 (txt "0123456789ABCDEFGHIJ")).length ≤ 10 + TRUNC_MARKER_src.length ∧
     TRUNC_MARKER_src.isSuffixOf (truncate_src 10 (txt "0123456789ABCDEFGHIJ")) = true ∧
     truncate_app 10 (txt "short") = txt "short" ∧
     truncate_src 10 (txt "short") = txt "short") :=
  ⟨by decide, by decide,
   truncation_policy 10 (txt "0123456789ABCDEFGHIJ") (txt "short") (by decide) (by decide)⟩

/-- C8: a missing target exits with status 1 and a message naming the
path; an existing non-directory target exits with status 1 and a message
naming the path; a directory target always exits with status 0, also
when the LLM call fails (the failure is reported as text). -/
theorem cli_exit_codes (dirParts : List String) (hasModel : Bool) (maxChars : Nat)
    (dryRun : Bool) (llm : Except Chars Chars) (n : String) (rr : ReadResult)
    (dn : Bool) (cs : List FSEntry) (e : Chars) :
    (main_app dirParts none hasModel maxChars dryRun llm).exitCode = 1 ∧
    (main_app dirParts none hasModel maxChars dryRun llm).printed
      = txt "Error: Directory \x27" ++ path_text dirParts ++ txt "\x27 does not exist." ∧
    (main_app dirParts (some (.file n rr)) hasModel maxChars dryRun llm).exitCode = 1 ∧
    (main_app dirParts (some (.file n rr)) hasModel maxChars dryRun llm).printed
      = txt "Error: Path \x27" ++ path_text dirParts ++ txt "\x27 is not a directory." ∧
    (main_app dirParts (some (.dir n dn cs)) hasModel maxChars dryRun llm).exitCode = 0 ∧
    (main_app dirParts (some (.dir n dn cs)) hasModel maxChars false (.error e)).exitCode = 0 :=
  ⟨rfl, rfl, rfl, rfl, rfl, rfl⟩

/-- Witness for C8 at concrete arguments. -/
theorem cli_exit_codes_witness :
    (main_app ["proj"] none true 5000 false (.ok (txt "R"))).exitCode = 1 ∧
    (main_app ["proj"] none true 5000 false (.ok (txt "R"))).printed
      = txt "Error: Directory \x27" ++ path_text ["proj"] ++ txt "\x27 does not exist." ∧
    (main_app ["proj"] (some (.file "proj" .ioError)) true 5000 false (.ok (txt "R"))).exitCode = 1 ∧
    (main_app ["proj"] (some (.file "proj" .ioError)) true 5000 false (.ok (txt "R"))).printed
      = txt "Error: Path \x27" ++ path_text ["proj"] ++ txt "\x27 is not a directory." ∧
    (main_app ["proj"] (some (.dir "proj" false [])) true 5000 false (.ok (txt "R"))).exitCode = 0 ∧
    (main_app ["proj"] (some (.dir "proj" false [])) true 5000 false (.error (txt "quota"))).exitCode = 0 :=
  cli_exit_codes ["proj"] true 5000 false (.ok (txt "R")) "proj" .ioError false [] (txt "quota")

/-- The `app` agent never reaches the remote call when in dry-run mode
or when `self.model` is unset. -/
theorem generate_app_no_call (hasModel : Bool) (maxChars : Nat) (dirParts : List String)
    (root : Option FSEntry) (dryRun : Bool) (llm : Except Chars Chars)
    (h : dryRun = true ∨ hasModel = false) :
    (generate_app hasModel maxChars dirParts root dryRun llm).llmCalled = false := by
  by_cases hs : get_file_summaries_app maxChars dirParts root = []
  · simp [generate_app, hs]
  · rcases h with rfl | rfl
    · simp [generate_app, hs]
    · cases dryRun <;> simp [generate_app, hs]

/-- A one-file example project used by several witnesses. -/
def exampleRoot : Option FSEntry :=
  some (.dir "proj" false [.file "a.py" (.utf8Ok (txt "print(1)"))])

theorem example_summaries_eval :
    get_file_summaries_app 100 ["proj"] exampleRoot
      = [⟨txt "a.py", ".py", txt "print(1)", txt "Content of a.py"⟩] := by
  rw [get_file_summaries_app_eq]
  simp [exampleRoot, list_files_app, os_walk_app, files_of_app, walk_kids_app,
        mk_summary_app, read_file_content, truncate_app, path_text, py_suffix,
        splitLastDot, txt, SUPPORTED_EXTENSIONS_app]
  decide

/-- C4: with no `GEMINI_API_KEY` in the environment, the `src` variant
refuses to construct the agent (raises `ValueError`), and the `app`
variant sets no model, never contacts the remote endpoint in non-dry-run
mode, and (when the scan found files, i.e. the run reaches the client
stage) returns the explanatory `ERROR: GEMINI_API_KEY not set.` string. -/
theorem missing_key_fatal (maxChars : Nat) (dirParts : List String)
    (root : Option FSEntry) (llm : Except Chars Chars)
    (hne : get_file_summaries_app maxChars dirParts root ≠ []) :
    readme_agent_init_src none
      = .error (txt "GEMINI_API_KEY environment variable not set. Please set it in your terminal.") ∧
    readme_agent_model_app none = false ∧
    (∀ root' : Option FSEntry,
      (generate_app (readme_agent_model_app none) maxChars dirParts root' false llm).llmCalled
        = false) ∧
    (generate_app (readme_agent_model_app none) maxChars dirParts root false llm).output
      = key_error_text_app (context_app (generate_directory_tree_app dirParts root)
          (get_file_summaries_app maxChars dirParts root)) := by
  refine ⟨rfl, rfl, ?_, ?_⟩
  · intro root'
    exact generate_app_no_call _ _ _ _ _ _ (Or.inr rfl)
  · simp [generate_app, hne, readme_agent_model_app]

/-- Witness for C4 on the one-file example project. -/
theorem missing_key_fatal_witness :
    get_file_summaries_app 100 ["proj"] exampleRoot ≠ [] ∧
    (readme_agent_init_src none
      = .error (txt "GEMINI_API_KEY environment variable not set. Please set it in your terminal.") ∧
    readme_agent_model_app none = false ∧
    (∀ root' : Option FSEntry,
      (generate_app (readme_agent_model_app none) 100 ["proj"] root' false (.ok (txt "R"))).llmCalled
        = false) ∧
    (generate_app (readme_agent_model_app none) 100 ["proj"] exampleRoot false (.ok (txt "R"))).output
      = key_error_text_app (context_app (generate_directory_tree_app ["proj"] exampleRoot)
          (get_file_summaries_app 100 ["proj"] exampleRoot))) :=
  have hne : get_file_summaries_app 100 ["proj"] exampleRoot ≠ [] := by
    rw [example_summaries_eval]; exact fun h => List.noConfusion h
  ⟨hne, missing_key_fatal 100 ["proj"] exampleRoot (.ok (txt "R")) hne⟩

/-- C7: when the remote generation call raises with message `e`, the
`app` agent catches it and returns the formatted
`Error generating README: ...` string containing the description, the
`src` agent returns `An error occurred while generating the README: ...`
(once context building has succeeded), and the driver still exits with
status 0. -/
theorem llm_failure_reported (maxChars : Nat) (dirParts : List String)
    (root : Option FSEntry) (e : Chars)
    (hne : get_file_summaries_app maxChars dirParts root ≠ [])
    (dn : Bool) (cs : List FSEntry) (ctx : Chars)
    (hctx : context_src maxChars dirParts dn cs = .ok ctx)
    (n : String) (rdn : Bool) (rcs : List FSEntry) :
    (generate_app true maxChars dirParts root false (.error e)).output
      = txt "Error generating README: " ++ e ∧
    (generate_app true maxChars dirParts root false (.error e)).llmCalled = true ∧
    (generate_src maxChars dirParts dn cs false (.error e)).out
      = .ok (txt "An error occurred while generating the README: " ++ e) ∧
    (generate_src maxChars dirParts dn cs false (.error e)).llmCalled = true ∧
    (main_app dirParts (some (.dir n rdn rcs)) true maxChars false (.error e)).exitCode = 0 := by
  refine ⟨?_, ?_, ?_, ?_, rfl⟩
  · simp [generate_app, hne]
  · simp [generate_app, hne]
  · simp [generate_src, hctx]
  · simp [generate_src, hctx]

theorem example_context_src_eval :
    context_src 100 ["proj"] false []
      = .ok (txt "# Project Directory Tree\n```\n\n```\n\n# File Contents") := by
  simp [context_src, generate_directory_tree_src, tree_src_dir, rows_src,
        sort_rendered_src, get_file_summaries_src, rglob_src]
  decide

/-- Witness for C7 on the one-file example project (app side) and an
empty project directory (src side). -/
theorem llm_failure_reported_witness :
    get_file_summaries_app 100 ["proj"] exampleRoot ≠ [] ∧
    context_src 100 ["proj"] false []
      = .ok (txt "# Project Directory Tree\n```\n\n```\n\n# File Contents") ∧
    ((generate_app true 100 ["proj"] exampleRoot false (.error (txt "429 quota"))).output
      = txt "Error generating README: " ++ txt "429 quota" ∧
    (generate_app true 100 ["proj"] exampleRoot false (.error (txt "429 quota"))).llmCalled = true ∧
    (generate_src 100 ["proj"] false [] false (.error (txt "429 quota"))).out
      = .ok (txt "An error occurred while generating the README: " ++ txt "429 quota") ∧
    (generate_src 100 ["proj"] false [] false (.error (txt "429 quota"))).llmCalled = true ∧
    (main_app ["proj"] (some (.dir "proj" false [])) true 100 false
        (.error (txt "429 quota"))).exitCode = 0) :=
  have hne : get_file_summaries_app 100 ["proj"] exampleRoot ≠ [] := by
    rw [example_summaries_eval]; exact fun h => List.noConfusion h
  ⟨hne, example_context_src_eval,
   llm_failure_reported 100 ["proj"] exampleRoot (txt "429 quota") hne false [] _
     example_context_src_eval "proj" false []⟩

theorem dry_run_text_app_starts (nf : Nat) (ctx : Chars) :
    ∃ rest, dry_run_text_app nf ctx = txt "[DRY RUN MODE]" ++ rest := by
  refine ⟨txt "\n            \nAnalysis complete.\n- Files found: " ++ nat_text nf
    ++ txt "\n- Total context size (approx): " ++ nat_text ctx.length
    ++ txt " characters\n\nPreview of Context Sent to LLM:\n"
    ++ ctx.take 1000 ++ txt "...\n", ?_⟩
  simp [dry_run_text_app, List.append_assoc]

/-- C3 (amended): with the dry-run flag set neither variant ever invokes
the remote endpoint, whatever the credentials or project contents; the
`app` variant returns the `[DRY RUN MODE]` preview provided the scan
found at least one valid file (on an empty scan it returns the
no-valid-files error message instead, still without any network call),
and the `src` variant returns its fixed dry-run completion message
whenever context building succeeds. -/
theorem dry_run_no_llm_call (hasModel : Bool) (maxChars : Nat) (dirParts : List String)
    (root : Option FSEntry) (llm : Except Chars Chars)
    (dn : Bool) (cs : List FSEntry) (ctx : Chars)
    (hne : get_file_summaries_app maxChars dirParts root ≠ [])
    (hctx : context_src maxChars dirParts dn cs = .ok ctx) :
    (∀ root' : Option FSEntry,
      (generate_app hasModel maxChars dirParts root' true llm).llmCalled = false) ∧
    (∃ rest, (generate_app hasModel maxChars dirParts root true llm).output
      = txt "[DRY RUN MODE]" ++ rest) ∧
    (∀ (dn' : Bool) (cs' : List FSEntry),
      (generate_src maxChars dirParts dn' cs' true llm).llmCalled = false) ∧
    (generate_src maxChars dirParts dn cs true llm).out = .ok DRY_RUN_TEXT_src := by
  refine ⟨?_, ?_, ?_, ?_⟩
  · intro root'
    exact generate_app_no_call _ _ _ _ _ _ (Or.inl rfl)
  · simp only [generate_app, hne, if_false, if_true]
    simpa [hne] using dry_run_text_app_starts
      (get_file_summaries_app maxChars dirParts root).length
      (context_app (generate_directory_tree_app dirParts root)
        (get_file_summaries_app maxChars dirParts root))
  · intro dn' cs'
    cases h : context_src maxChars dirParts dn' cs' with
    | error e => simp [generate_src, h]
    | ok c => simp [generate_src, h]
  · simp [generate_src, hctx]

/-- Counterexample for C3 as frozen: on an empty project directory, a
dry-run invocation of the `app` agent does not return a preview: it
returns the no-valid-files error message, which does not begin with the
preview header. -/
theorem dry_run_empty_project_counterexample :
    (generate_app true 5000 ["proj"] (some (.dir "proj" false []))
        true (.ok (txt "R"))).output = NO_FILES_ERROR_app ∧
    ¬ ∃ rest,
      (generate_app true 5000 ["proj"] (some (.dir "proj" false []))
          true (.ok (txt "R"))).output = txt "[DRY RUN MODE]" ++ rest := by
  have hs : get_file_summaries_app 5000 ["proj"] (some (.dir "proj" false [])) = [] := by
    rw [get_file_summaries_app_eq]
    simp [list_files_app, os_walk_app, files_of_app, walk_kids_app]
  have hout : (generate_app true 5000 ["proj"] (some (.dir "proj" false []))
      true (.ok (txt "R"))).output = NO_FILES_ERROR_app := by
    simp [generate_app, hs]
  refine ⟨hout, ?_⟩
  rintro ⟨rest, hr⟩
  rw [hout] at hr
  have h3 : List.take 14 NO_FILES_ERROR_app
      = List.take 14 (txt "[DRY RUN MODE]" ++ rest) := by rw [hr]
  have h4 : List.take 14 (txt "[DRY RUN MODE]" ++ rest) = txt "[DRY RUN MODE]" := by
    rw [show (14 : Nat) = (txt "[DRY RUN MODE]").length from rfl]
    exact List.take_left _ _
  rw [h4] at h3
  revert h3
  decide

/-- Witness for C3's amended theorem on the one-file example project
(app side) and an empty project (src side). -/
theorem dry_run_no_llm_call_witness :
    get_file_summaries_app 100 ["proj"] exampleRoot ≠ [] ∧
    context_src 100 ["proj"] false []
      = .ok (txt "# Project Directory Tree\n```\n\n```\n\n# File Contents") ∧
    ((∀ root' : Option FSEntry,
      (generate_app false 100 ["proj"] root' true (.ok (txt "R"))).llmCalled = false) ∧
    (∃ rest, (generate_app false 100 ["proj"] exampleRoot true (.ok (txt "R"))).output
      = txt "[DRY RUN MODE]" ++ rest) ∧
    (∀ (dn' : Bool) (cs' : List FSEntry),
      (generate_src 100 ["proj"] dn' cs' true (.ok (txt "R"))).llmCalled = false) ∧
    (generate_src 100 ["proj"] false [] true (.ok (txt "R"))).out = .ok DRY_RUN_TEXT_src) :=
  have hne : get_file_summaries_app 100 ["proj"] exampleRoot ≠ [] := by
    rw [example_summaries_eval]; exact fun h => List.noConfusion h
  ⟨hne, example_context_src_eval,
   dry_run_no_llm_call false 100 ["proj"] exampleRoot (.ok (txt "R")) false [] _
     hne example_context_src_eval⟩

/-- C10: a scanned file whose read succeeds with the empty string yields
no summary (Python's `if content:` is false on `""` exactly as on
`None`), and every summary the `app` agent returns comes from a file
whose read produced a non-empty text - so an empty readable file never
appears in the assembled context. -/
theorem empty_file_omitted_app (maxChars : Nat) (dirParts : List String)
    (root : Option FSEntry) (s : FileSummaryApp)
    (hs : s ∈ get_file_summaries_app maxChars dirParts root)
    (f0 : PFile) (h0 : read_file_content f0.rr = some []) :
    mk_summary_app maxChars dirParts f0 = none ∧
    ∃ f ∈ list_files_app dirParts root, ∃ c : Chars,
      read_file_content f.rr = some c ∧ c ≠ [] ∧
      mk_summary_app maxChars dirParts f = some s := by
  constructor
  · unfold mk_summary_app
    rw [h0]
    simp
  · obtain ⟨f, hf, hmk⟩ := mem_get_file_summaries_app hs
    refine ⟨f, hf, ?_⟩
    unfold mk_summary_app at hmk
    cases hrd : read_file_content f.rr with
    | none => rw [hrd] at hmk; simp at hmk
    | some c =>
      rw [hrd] at hmk
      by_cases hc : c = []
      · simp only [hc, if_pos rfl] at hmk
        exact absurd hmk (by simp)
      · refine ⟨c, rfl, hc, ?_⟩
        unfold mk_summary_app
        rw [hrd]
        simpa [hc] using hmk

/-- Witness for C10: the example project's single summary, and a
zero-byte readable file. -/
theorem empty_file_omitted_app_witness :
    (⟨txt "a.py", ".py", txt "print(1)", txt "Content of a.py"⟩ : FileSummaryApp)
      ∈ get_file_summaries_app 100 ["proj"] exampleRoot ∧
    read_file_content (PFile.mk ["proj"] "empty.py" (.utf8Ok [])).rr = some [] ∧
    (mk_summary_app 100 ["proj"] (PFile.mk ["proj"] "empty.py" (.utf8Ok [])) = none ∧
    ∃ f ∈ list_files_app ["proj"] exampleRoot, ∃ c : Chars,
      read_file_content f.rr = some c ∧ c ≠ [] ∧
      mk_summary_app 100 ["proj"] f
        = some ⟨txt "a.py", ".py", txt "print(1)", txt "Content of a.py"⟩) :=
  have hs : (⟨txt "a.py", ".py", txt "print(1)", txt "Content of a.py"⟩ : FileSummaryApp)
      ∈ get_file_summaries_app 100 ["proj"] exampleRoot := by
    rw [example_summaries_eval]; exact List.mem_singleton.mpr rfl
  ⟨hs, rfl,
   empty_file_omitted_app 100 ["proj"] exampleRoot _ hs
     (PFile.mk ["proj"] "empty.py" (.utf8Ok [])) rfl⟩

/-- C5 (amended): the `app` content reader `read_file_content` first
attempts UTF-8, falls back to latin-1 on a decode failure, and returns
`None` when both fail (or on another read error); every summary either
variant returns comes from a file whose (variant-specific) read
succeeded, so files failing all attempted decodings are absent from both
result sets.  The `src` variant, however, attempts no fallback: its
inline UTF-8 read fails on a latin-1-only file and the file is skipped. -/
theorem decode_policy_and_absence (s0 : Chars) (maxChars : Nat) (dirParts : List String)
    (root : Option FSEntry) (t : FileSummaryApp)
    (ht : t ∈ get_file_summaries_app maxChars dirParts root)
    (dn : Bool) (cs : List FSEntry) (u : FileSummarySrc)
    (hu : u ∈ get_file_summaries_src maxChars dirParts dn cs) :
    read_file_content (.utf8Ok s0) = some s0 ∧
    read_file_content (.latin1Ok s0) = some s0 ∧
    read_file_content .undecodable = none ∧
    read_file_content .ioError = none ∧
    read_utf8_src (.latin1Ok s0) = none ∧
    (∃ f ∈ list_files_app dirParts root, ∃ c : Chars,
      read_file_content f.rr = some c ∧ mk_summary_app maxChars dirParts f = some t) ∧
    (∃ f ∈ (if dn then [] else rglob_src dirParts cs), ∃ c : Chars,
      read_utf8_src f.rr = some c ∧ mk_summary_src maxChars dirParts f = some u) := by
  refine ⟨rfl, rfl, rfl, rfl, rfl, ?_, ?_⟩
  · obtain ⟨f, hf, hmk⟩ := mem_get_file_summaries_app ht
    refine ⟨f, hf, ?_⟩
    have hmk2 := hmk
    unfold mk_summary_app at hmk2
    cases hrd : read_file_content f.rr with
    | none => rw [hrd] at hmk2; simp at hmk2
    | some c => exact ⟨c, rfl, hmk⟩
  · obtain ⟨f, hf, hmk⟩ := mem_get_file_summaries_src hu
    refine ⟨f, hf, ?_⟩
    have hmk2 := hmk
    unfold mk_summary_src at hmk2
    by_cases hex : ((f.pre ++ [f.name]).any
        fun part => decide (part ∈ EXCLUSION_PATTERNS_src)) = true
    · simp [hex] at hmk2
    · by_cases hsuf : py_suffix f.name ∈ SUPPORTED_EXTENSIONS_src
      · simp only [hex, hsuf, if_true, Bool.false_eq_true, if_false] at hmk2
        cases hrd : read_utf8_src f.rr with
        | none => rw [hrd] at hmk2; simp at hmk2
        | some c => exact ⟨c, rfl, hmk⟩
      · simp [hex, hsuf] at hmk2

/-- Counterexample for C5 as frozen: a file that UTF-8 cannot decode but
the latin-1 fallback can; the claimed fallback attempt would include it,
yet the `src` variant's reader performs no fallback and the file is
absent from its result set. -/
theorem fallback_not_attempted_src_counterexample :
    read_file_content (.latin1Ok (txt "abc")) = some (txt "abc") ∧
    get_file_summaries_src 100 ["r"] false [.file "a.py" (.latin1Ok (txt "abc"))] = [] := by
  refine ⟨rfl, ?_⟩
  rw [get_file_summaries_src_eq]
  simp [rglob_src, mk_summary_src, read_utf8_src]

theorem example_summaries_src_eval :
    get_file_summaries_src 100 ["proj"] false [.file "a.py" (.utf8Ok (txt "print(1)"))]
      = [⟨["a.py"], txt "print(1)"⟩] := by
  rw [get_file_summaries_src_eq]
  simp [rglob_src, mk_summary_src, read_utf8_src, truncate_src, py_suffix,
        splitLastDot, txt, SUPPORTED_EXTENSIONS_src, EXCLUSION_PATTERNS_src]

/-- Witness for C5's amended theorem on the example projects. -/
theorem decode_policy_and_absence_witness :
    (⟨txt "a.py", ".py", txt "print(1)", txt "Content of a.py"⟩ : FileSummaryApp)
      ∈ get_file_summaries_app 100 ["proj"] exampleRoot ∧
    (⟨["a.py"], txt "print(1)"⟩ : FileSummarySrc)
      ∈ get_file_summaries_src 100 ["proj"] false [.file "a.py" (.utf8Ok (txt "print(1)"))] ∧
    (read_file_content (.utf8Ok (txt "abc")) = some (txt "abc") ∧
    read_file_content (.latin1Ok (txt "abc")) = some (txt "abc") ∧
    read_file_content .undecodable = none ∧
    read_file_content .ioError = none ∧
    read_utf8_src (.latin1Ok (txt "abc")) = none ∧
    (∃ f ∈ list_files_app ["proj"] exampleRoot, ∃ c : Chars,
      read_file_content f.rr = some c ∧ mk_summary_app 100 ["proj"] f
        = some ⟨txt "a.py", ".py", txt "print(1)", txt "Content of a.py"⟩) ∧
    (∃ f ∈ (if false then [] else rglob_src ["proj"] [.file "a.py" (.utf8Ok (txt "print(1)"))]),
      ∃ c : Chars, read_utf8_src f.rr = some c ∧ mk_summary_src 100 ["proj"] f
        = some ⟨["a.py"], txt "print(1)"⟩)) :=
  have ht : (⟨txt "a.py", ".py", txt "print(1)", txt "Content of a.py"⟩ : FileSummaryApp)
      ∈ get_file_summaries_app 100 ["proj"] exampleRoot := by
    rw [example_summaries_eval]; exact List.mem_singleton.mpr rfl
  have hu : (⟨["a.py"], txt "print(1)"⟩ : FileSummarySrc)
      ∈ get_file_summaries_src 100 ["proj"] false [.file "a.py" (.utf8Ok (txt "print(1)"))] := by
    rw [example_summaries_src_eval]; exact List.mem_singleton.mpr rfl
  ⟨ht, hu,
   decode_policy_and_absence (txt "abc") 100 ["proj"] exampleRoot _ ht false
     [.file "a.py" (.utf8Ok (txt "print(1)"))] _ hu⟩

/-- C1 (amended): every path the `app` scanner (`list_files`) returns
has a supported extension, and below the scan root none of its
components (the file name included) is an exclusion entry - but the
root's own components are not filtered, see the counterexample.  Every
summary the `src` scanner (`get_file_summaries`) returns has a supported
extension on its file name and no excluded component anywhere in its
relative path (this variant checks the full path, root prefix
included). -/
theorem scan_filter_invariants (dirParts : List String) (root : Option FSEntry)
    (f : PFile) (hf : f ∈ list_files_app dirParts root)
    (maxChars : Nat) (dn : Bool) (cs : List FSEntry) (u : FileSummarySrc)
    (hu : u ∈ get_file_summaries_src maxChars dirParts dn cs) :
    (py_suffix f.name ∈ SUPPORTED_EXTENSIONS_app ∧
     ∃ mid, f.pre = dirParts ++ mid ∧
       ∀ c ∈ mid ++ [f.name], c ∉ EXCLUSION_PATTERNS_app) ∧
    (py_suffix (last_name u.relative_path) ∈ SUPPORTED_EXTENSIONS_src ∧
     ∀ c ∈ u.relative_path, c ∉ EXCLUSION_PATTERNS_src) := by
  constructor
  · obtain ⟨hsuf, mid, hpre, hmid⟩ := mem_list_files_app hf
    refine ⟨hsuf, mid, hpre, ?_⟩
    intro c hc
    rcases List.mem_append.mp hc with h | h
    · exact hmid c h
    · rcases List.mem_singleton.mp h with rfl
      exact suffix_not_excluded_app _ hsuf
  · obtain ⟨g, _, hmk⟩ := mem_get_file_summaries_src hu
    unfold mk_summary_src at hmk
    by_cases hex : ((g.pre ++ [g.name]).any
        fun part => decide (part ∈ EXCLUSION_PATTERNS_src)) = true
    · simp [hex] at hmk
    · by_cases hsuf : py_suffix g.name ∈ SUPPORTED_EXTENSIONS_src
      · simp only [hex, hsuf, if_true, Bool.false_eq_true, if_false] at hmk
        cases hrd : read_utf8_src g.rr with
        | none => rw [hrd] at hmk; simp at hmk
        | some c =>
          rw [hrd] at hmk
          have hrel : u.relative_path = g.pre.drop dirParts.length ++ [g.name] := by
            cases hmk
            rfl
          have hname : last_name u.relative_path = g.name := by
            rw [hrel]
            exact List.getLastD_concat _ _ _
          refine ⟨by rw [hname]; exact hsuf, ?_⟩
          intro c0 hc0
          intro hc0ex
          apply hex
          rw [List.any_eq_true]
          refine ⟨c0, ?_, by simpa using hc0ex⟩
          rw [hrel] at hc0
          rcases List.mem_append.mp hc0 with h | h
          · exact List.mem_append.mpr (Or.inl (List.mem_of_mem_drop h))
          · exact List.mem_append.mpr (Or.inr h)
      · simp [hex, hsuf] at hmk

/-- Counterexample for C1 as frozen: scanning a root directory that is
itself named `build` returns a path one of whose components (`build`) is
an exclusion entry - `list_files` prunes only components below the
root. -/
theorem scan_root_prefix_counterexample :
    ∃ f ∈ list_files_app ["build"]
        (some (.dir "build" false [.file "a.py" (.utf8Ok (txt "print"))])),
      ∃ c ∈ f.pre ++ [f.name], c ∈ EXCLUSION_PATTERNS_app := by
  have heval : list_files_app ["build"]
      (some (.dir "build" false [.file "a.py" (.utf8Ok (txt "print"))]))
      = [⟨["build"], "a.py", .utf8Ok (txt "print")⟩] := by
    simp [list_files_app, os_walk_app, files_of_app, walk_kids_app, py_suffix,
          splitLastDot, txt, SUPPORTED_EXTENSIONS_app]
  rw [heval]
  refine ⟨⟨["build"], "a.py", .utf8Ok (txt "print")⟩, List.mem_singleton.mpr rfl,
    "build", by decide, by decide⟩

theorem example_list_files_eval :
    list_files_app ["proj"] exampleRoot
      = [⟨["proj"], "a.py", .utf8Ok (txt "print(1)")⟩] := by
  simp [exampleRoot, list_files_app, os_walk_app, files_of_app, walk_kids_app,
        py_suffix, splitLastDot, txt, SUPPORTED_EXTENSIONS_app]

/-- Witness for C1's amended theorem on the example projects. -/
theorem scan_filter_invariants_witness :
    (⟨["proj"], "a.py", .utf8Ok (txt "print(1)")⟩ : PFile)
      ∈ list_files_app ["proj"] exampleRoot ∧
    (⟨["a.py"], txt "print(1)"⟩ : FileSummarySrc)
      ∈ get_file_summaries_src 100 ["proj"] false [.file "a.py" (.utf8Ok (txt "print(1)"))] ∧
    ((py_suffix "a.py" ∈ SUPPORTED_EXTENSIONS_app ∧
     ∃ mid, (["proj"] : List String) = ["proj"] ++ mid ∧
       ∀ c ∈ mid ++ ["a.py"], c ∉ EXCLUSION_PATTERNS_app) ∧
    (py_suffix (last_name ["a.py"]) ∈ SUPPORTED_EXTENSIONS_src ∧
     ∀ c ∈ (["a.py"] : List String), c ∉ EXCLUSION_PATTERNS_src)) :=
  have hf : (⟨["proj"], "a.py", .utf8Ok (txt "print(1)")⟩ : PFile)
      ∈ list_files_app ["proj"] exampleRoot := by
    rw [example_list_files_eval]; exact List.mem_singleton.mpr rfl
  have hu : (⟨["a.py"], txt "print(1)"⟩ : FileSummarySrc)
      ∈ get_file_summaries_src 100 ["proj"] false [.file "a.py" (.utf8Ok (txt "print(1)"))] := by
    rw [example_summaries_src_eval]; exact List.mem_singleton.mpr rfl
  ⟨hf, hu,
   scan_filter_invariants ["proj"] exampleRoot _ hf 100 false
     [.file "a.py" (.utf8Ok (txt "print(1)"))] _ hu⟩

/-- C6 (amended): the `app` tree renderer lists the children of every
directory sorted by `rendered_le_app`, the embedding of its
`key=lambda e: (e.is_file(), e.name.lower())` - directories before
files, case-insensitively alphabetical within each group.  The `src`
renderer instead sorts by `rendered_le_src` - plain code-point name
order, with no type grouping and no case folding. -/
theorem tree_children_sorted (l : List RenderedApp) (l2 : List RenderedSrc) :
    List.Sorted rendered_le_app (sort_rendered_app l) ∧
    List.Sorted rendered_le_src (sort_rendered_src l2) :=
  ⟨List.sorted_insertionSort rendered_le_app l,
   List.sorted_insertionSort rendered_le_src l2⟩

/-- Counterexample for C6 as frozen: the `src` renderer lists the file
`a.py` before the directory `b` (plain name order), while the claimed
directories-first order - under which a file never precedes a directory,
second conjunct - would list `b` first. -/
theorem tree_src_not_dirs_first_counterexample :
    generate_directory_tree_src false [.dir "b" false [], .file "a.py" .ioError]
      = .ok (txt "├── a.py\n└── b\n") ∧
    ¬ rendered_le_app ⟨"a.py", false, fun _ => []⟩ ⟨"b", true, fun _ => []⟩ := by
  constructor
  · simp [generate_directory_tree_src, tree_src_dir, render_node_src, rows_src,
          sort_rendered_src, List.insertionSort, List.orderedInsert,
          rendered_le_src, chars_le, fs_name, EXCLUSION_PATTERNS_src, txt]
    decide
  · decide

/-- Witness for C6's amended theorem on concrete child lists. -/
theorem tree_children_sorted_witness :
    List.Sorted rendered_le_app
      (sort_rendered_app [⟨"B.py", false, fun _ => []⟩, ⟨"a", true, fun _ => []⟩]) ∧
    List.Sorted rendered_le_src
      (sort_rendered_src [⟨"B.py", false, fun _ => .ok []⟩, ⟨"a", true, fun _ => .ok []⟩]) :=
  tree_children_sorted [⟨"B.py", false, fun _ => []⟩, ⟨"a", true, fun _ => []⟩]
    [⟨"B.py", false, fun _ => .ok []⟩, ⟨"a", true, fun _ => .ok []⟩]

theorem attach_filter_map {α β : Type} (L : List α) (p : α → Bool) (f : α → β) :
    ((L.attach.filter fun e => p e.1).map fun e => f e.1) = (L.filter p).map f := by
  have h1 : ((L.attach.filter fun e => p e.1).map fun e => f e.1)
      = (((L.attach.filter fun e => p e.1)).map fun e => e.1).map f := by
    rw [List.map_map]
    rfl
  rw [h1]
  have h2 : ((L.attach.filter fun e => p e.1).map fun e => e.1)
      = (L.attach.map fun e => e.1).filter p := by
    rw [List.filter_map]
    rfl
  have h3 : (L.attach.map fun e => e.1) = L := List.attach_map_subtype_val L
  rw [h2, h3]

theorem add_to_tree_app_denied (sp : List String) (cs : List FSEntry) (pfx : Chars) :
    add_to_tree_app sp true cs pfx = [] := by
  unfold add_to_tree_app
  simp

/-- Rendering a denied directory never looks at its children. -/
theorem render_node_app_denied_congr (pp : List String) (n : String)
    (cs cs' : List FSEntry) :
    render_node_app pp (.dir n true cs) = render_node_app pp (.dir n true cs') := by
  simp only [render_node_app]
  congr 1
  funext pfx
  rw [add_to_tree_app_denied, add_to_tree_app_denied]

theorem attach_filter_map_render (sp : List String) (L : List FSEntry) :
    ((L.attach.filter fun e => keep_child_app sp (fs_name e.1)).map
        fun e => render_node_app sp e.1)
      = (L.filter fun x => keep_child_app sp (fs_name x)).map (render_node_app sp) :=
  attach_filter_map L (fun x => keep_child_app sp (fs_name x)) (render_node_app sp)

/-- The whole `app` render is unchanged when a denied directory's
children change: its subtree is skipped, the remaining entries are
rendered as before. -/
theorem add_to_tree_app_denied_child_congr (sp : List String) (d : Bool) (pfx : Chars)
    (before after : List FSEntry) (n : String) (cs cs' : List FSEntry) :
    add_to_tree_app sp d (before ++ .dir n true cs :: after) pfx
      = add_to_tree_app sp d (before ++ .dir n true cs' :: after) pfx := by
  cases d with
  | true => rw [add_to_tree_app_denied, add_to_tree_app_denied]
  | false =>
    unfold add_to_tree_app
    simp only [Bool.false_eq_true, if_false]
    rw [attach_filter_map_render, attach_filter_map_render]
    simp only [List.filter_append, List.filter_cons]
    have hmid := render_node_app_denied_congr sp n cs cs'
    by_cases hk : keep_child_app sp n = true
    · simp only [fs_name, hk, if_pos, List.map_append, List.map_cons, hmid]
    · simp only [fs_name, hk, if_neg]
      simp [hk]

/-- C9 (amended): the `app` renderer catches `PermissionError`: a denied
directory contributes no children to the output, the rendered tree is
entirely independent of a denied directory's children, and the rest of
the tree is rendered as usual; the `src` renderer does not catch it -
reaching any denied directory aborts the whole render with the
propagated exception. -/
theorem permission_denied_handling (sp dirParts : List String) (n rn : String)
    (cs cs' before after : List FSEntry) (pfx ind : Chars) (rd : Bool)
    (csx : List FSEntry) :
    add_to_tree_app sp true cs pfx = [] ∧
    generate_directory_tree_app dirParts
        (some (.dir rn rd (before ++ .dir n true cs :: after)))
      = generate_directory_tree_app dirParts
          (some (.dir rn rd (before ++ .dir n true cs' :: after))) ∧
    tree_src_dir true csx ind = .error (txt "PermissionError") := by
  refine ⟨add_to_tree_app_denied sp cs pfx, ?_, ?_⟩
  · simp only [generate_directory_tree_app]
    rw [add_to_tree_app_denied_child_congr]
  · unfold tree_src_dir
    simp

/-- A tree-render failure propagates unchanged through `_get_context`
(nothing there catches it). -/
theorem context_src_error (maxChars : Nat) (dirParts : List String) (denied : Bool)
    (cs : List FSEntry) (e : Chars)
    (h : generate_directory_tree_src denied cs = .error e) :
    context_src maxChars dirParts denied cs = .error e := by
  unfold context_src
  rw [h]

/-- A context-building failure propagates unchanged out of the `src`
`generate` (`_get_context` is called outside the `try` block). -/
theorem generate_src_error (maxChars : Nat) (dirParts : List String) (denied : Bool)
    (cs : List FSEntry) (dryRun : Bool) (llm : Except Chars Chars) (e : Chars)
    (h : context_src maxChars dirParts denied cs = .error e) :
    (generate_src maxChars dirParts denied cs dryRun llm).out = .error e := by
  unfold generate_src
  rw [h]

/-- Counterexample for C9 as frozen: in the `src` variant a denied
subdirectory aborts the whole render (the remaining tree is never
produced), and the exception even escapes `generate`. -/
theorem permission_error_aborts_src_counterexample :
    generate_directory_tree_src false [.dir "secret" true [], .file "a.py" .ioError]
      = .error (txt "PermissionError") ∧
    (generate_src 100 ["proj"] false [.dir "secret" true [], .file "a.py" .ioError]
        false (.ok (txt "R"))).out = .error (txt "PermissionError") := by
  have htree : generate_directory_tree_src false [.dir "secret" true [], .file "a.py" .ioError]
      = .error (txt "PermissionError") := by
    simp [generate_directory_tree_src, tree_src_dir, render_node_src, rows_src,
          sort_rendered_src, List.insertionSort, List.orderedInsert,
          rendered_le_src, chars_le, fs_name, EXCLUSION_PATTERNS_src, txt]
    rfl
  exact ⟨htree, generate_src_error 100 ["proj"] false _ false (.ok (txt "R")) _
    (context_src_error 100 ["proj"] false _ _ htree)⟩

/-- Witness for C9's amended theorem at concrete arguments. -/
theorem permission_denied_handling_witness :
    add_to_tree_app ["proj", "locked"] true [.file "a.py" .ioError] (txt "│   ") = [] ∧
    generate_directory_tree_app ["proj"]
        (some (.dir "proj" false
          ([.file "b.py" .ioError] ++ .dir "locked" true [.file "a.py" .ioError]
            :: [.file "c.py" .ioError])))
      = generate_directory_tree_app ["proj"]
          (some (.dir "proj" false
            ([.file "b.py" .ioError] ++ .dir "locked" true []
              :: [.file "c.py" .ioError]))) ∧
    tree_src_dir true [.file "a.py" .ioError] (txt "    ")
      = .error (txt "PermissionError") :=
  permission_denied_handling ["proj", "locked"] ["proj"] "locked" "proj"
    [.file "a.py" .ioError] [] [.file "b.py" .ioError] [.file "c.py" .ioError]
    (txt "│   ") (txt "    ") false [.file "a.py" .ioError]
